import Mathlib

/-!
Shallow embedding of the validation and improvement-suggestion engine of
`pkg/hashicorp/tfdocs/validation.go` (package `tfdocs`), together with proofs
about the spec's claims on it.

Modelling conventions, stated once here:

* A Go `map[string]string` is modelled as an association list
  `List (String × String)` whose list order stands for the iteration order Go
  chooses for a particular `range` traversal.  Go's language specification
  leaves that order unspecified (and the runtime randomises it), so facts
  that must hold for "a call" of the engine are stated for all list orders,
  and order-sensitivity is exhibited by comparing two permutations of the
  same underlying map.

* Go machine integers that only ever count list elements are modelled as
  `Nat`; no arithmetic in the source can overflow them in any execution the
  claims quantify over.

* The model has two layers.

  The rule-logic layer embeds each validator's loop bodies as a pure
  function (`structureValidate`, …, `suggestImprovements`): the issue
  lists the loops construct.  The source's regular expressions are
  modelled by specialised matching functions, one per pattern,
  implementing leftmost, first-alternative, greedy-with-backtracking
  matching directly on `List Char`; `(?i)` is modelled by ASCII case
  folding (every literal in the source's patterns is ASCII).  Six of the
  source's patterns contain the negative lookahead `(?!^\x7d$)`; the
  rule-logic layer gives those patterns the meaning the pattern text
  denotes in the Perl-syntax family, with Go's default string-anchored
  `^`/`$`: at every position a match can reach, that lookahead is
  vacuously true, so `(?:(?:.|\n)(?!^\x7d$))*` consumes arbitrary text and
  a block pattern `... \x7b ... \x7d` extends from its header to the last
  closing brace of the scanned text.

  The call layer records what a Go call of the engine actually delivers.
  Go's RE2-based `regexp` package does not support `(?!` at all —
  `regexp.MustCompile` panics on those six patterns (modelled by
  `goRegexpAccepts`, a transcription of the group-intro acceptance rule of
  `regexp/syntax`, applied to the verbatim pattern texts of the source) —
  and those compiles sit unconditionally inside four of the six
  validators, so no call of `ValidateConfiguration` or
  `SuggestImprovements` ever returns.  `validateConfigurationGo` /
  `suggestImprovementsGo` model the calls as `Except` values and always
  produce the panic outcome.  (Independently, `validation.go` is not even
  accepted by the Go compiler: `resType` in the count loop is declared and
  never used, and the `encoding/json` and `path/filepath` imports are
  unused — so in a built binary none of this file's code runs at all;
  either way, nothing is ever delivered, which is what the call layer
  records.)

* Scanning loops (`FindAllStringSubmatch` etc.) advance by at least one
  character per step, so they are modelled with fuel equal to the length of
  the scanned text, which is always sufficient.
-/

namespace TfMcp

/-- Go `ValidationSeverity` of the source: the three values ever constructed. -/
inductive Severity where
  | error
  | warning
  | info
deriving DecidableEq

/-- Go `ValidationCategory` of the source (`struct` models `CategoryStructure`). -/
inductive Category where
  | struct
  | naming
  | security
  | performance
  | maintenance
  | documentation
deriving DecidableEq

/-- Go `ValidationIssue` of the source. `line` is never assigned by any
validator and stays `0`. -/
structure ValidationIssue where
  message : String
  severity : Severity
  category : Category
  file : String := ""
  line : Int := 0
  bestPractice : String := ""
  suggestion : String := ""
deriving DecidableEq

/-- Go `ValidationResult` of the source. -/
structure ValidationResult where
  issues : List ValidationIssue
  fileCount : Nat
  errorCount : Nat
  warnCount : Nat
  infoCount : Nat
deriving DecidableEq

/-- Go `TerraformConfiguration.Files`: an association list standing for the Go
map plus one concrete iteration order (see the header comment). -/
abbrev Bundle := List (String × String)

/-! ### String helpers (Go `strings` package operations used by the source) -/

/-- Go's `\s` character class: `[\t\n\f\r ]`. -/
def goSpace (c : Char) : Bool :=
  c = ' ' || c = '\t' || c = '\n' || c = '\x0c' || c = '\r'

/-- ASCII lower-casing of one character (models Go case folding for the
ASCII-only literals appearing in the source's patterns and names). -/
def asciiLower (c : Char) : Char :=
  if 'A' ≤ c && c ≤ 'Z' then Char.ofNat (c.toNat + 32) else c

/-- Go `strings.ToLower` (ASCII model). -/
def lowerStr (s : String) : String :=
  String.mk (s.toList.map asciiLower)

/-- Go `strings.HasSuffix s suf`. -/
def goHasSuffix (s suf : String) : Bool :=
  suf.toList.isSuffixOf s.toList

/-- Go `strings.HasPrefix s pre`. -/
def startsWithStr (s pre : String) : Bool :=
  pre.toList.isPrefixOf s.toList

/-- One step of substring search: does `pat` occur in the list? -/
def containsList (pat : List Char) : List Char → Bool
  | [] => pat.isEmpty
  | c :: cs => pat.isPrefixOf (c :: cs) || containsList pat cs

/-- Go `strings.Contains s sub`. -/
def goContains (s sub : String) : Bool :=
  containsList sub.toList s.toList

/-- Go map read `b[k]` (keys of a well-formed bundle are distinct). -/
def lookupB (b : Bundle) (k : String) : Option String :=
  (b.find? (fun p => p.1 == k)).map (·.2)

/-- Go map write `b[k] = v`: update in place, or append a fresh key. -/
def insertB (b : Bundle) (k v : String) : Bundle :=
  if (b.find? (fun p => p.1 == k)).isSome then
    b.map (fun p => if p.1 == k then (p.1, v) else p)
  else
    b ++ [(k, v)]

/-- Pattern `len(strings.Split(content, "\n"))`. -/
def lineCount (s : String) : Nat :=
  s.toList.count '\n' + 1

/-! ### Generic scanning combinators

`scanFuel` models `FindAllString(-Submatch)`: try the matcher at every
position, left to right; on a hit, emit it and resume after the matched
text; on a miss, advance one character.  Every matcher below consumes at
least one character on success, so fuel `cs.length` never truncates. -/

/-- Fuel-indexed scanning loop. -/
def scanFuel (m : List Char → Option (α × List Char)) : Nat → List Char → List α
  | 0, _ => []
  | _ + 1, [] => []
  | fuel + 1, c :: cs =>
    match m (c :: cs) with
    | some (a, rest) => a :: scanFuel m fuel rest
    | none => scanFuel m fuel cs

/-- All non-overlapping matches, leftmost first (`FindAllStringSubmatch`). -/
def scanAll (m : List Char → Option (α × List Char)) (cs : List Char) : List α :=
  scanFuel m cs.length cs

/-- Go `regexp.MatchString`: does the pattern match anywhere? -/
def hasMatch (m : List Char → Option (α × List Char)) (cs : List Char) : Bool :=
  !(scanAll m cs).isEmpty

/-- Fuel-indexed search for the first (leftmost) match. -/
def firstMatchFuel (m : List Char → Option (α × List Char)) :
    Nat → List Char → Option (α × List Char)
  | 0, _ => none
  | _ + 1, [] => none
  | fuel + 1, c :: cs =>
    match m (c :: cs) with
    | some x => some x
    | none => firstMatchFuel m fuel cs

/-- First match of the pattern (`FindStringSubmatch`). -/
def firstMatch (m : List Char → Option (α × List Char)) (cs : List Char) :
    Option (α × List Char) :=
  firstMatchFuel m cs.length cs

/-- Matches of `m` at every start position (overlapping), left to right. -/
def tryAllFuel (m : List Char → Option (α × List Char)) :
    Nat → List Char → List (α × List Char)
  | 0, _ => []
  | _ + 1, [] => []
  | fuel + 1, c :: cs =>
    (match m (c :: cs) with
     | some x => [x]
     | none => []) ++ tryAllFuel m fuel cs

/-- The match starting at the last position where `m` succeeds: the match a
greedy `.*`-style gap followed by `m`'s pattern selects under backtracking. -/
def lastMatch (m : List Char → Option (α × List Char)) (cs : List Char) :
    Option (α × List Char) :=
  (tryAllFuel m cs.length cs).getLast?

/-! ### The source's regular expressions, as specialised matchers

Each matcher takes the suffix of the text starting at a candidate match
position and returns `some (payload, rest)` on a match there, where `rest`
is the text after the matched span. -/

/-- Strip an exact (case-sensitive) literal. -/
def stripLit (pat cs : List Char) : Option (List Char) :=
  if pat.isPrefixOf cs then some (cs.drop pat.length) else none

/-- Strip a literal case-insensitively (`pat` given in lower case), keeping
the actually consumed characters. -/
def stripCIKeep : List Char → List Char → Option (List Char × List Char)
  | [], cs => some ([], cs)
  | _ :: _, [] => none
  | p :: ps, c :: cs =>
    if asciiLower c = p then
      match stripCIKeep ps cs with
      | some (a, r) => some (c :: a, r)
      | none => none
    else none

/-- Pattern `\s+`: at least one whitespace character, greedy (returns the consumed
run and the rest). -/
def wsPlus (cs : List Char) : Option (List Char × List Char) :=
  let w := cs.takeWhile goSpace
  if w.isEmpty then none else some (w, cs.dropWhile goSpace)

/-- Pattern `\s*=\s*`: optional whitespace, `=`, optional whitespace. -/
def eqSkip (cs : List Char) : Option (List Char) :=
  match cs.dropWhile goSpace with
  | '=' :: r => some (r.dropWhile goSpace)
  | _ => none

/-- Pattern `"([^"]+)"`: a non-empty quoted capture. Returns `(capture, rest)`. -/
def quoted (cs : List Char) : Option (List Char × List Char) :=
  match cs with
  | '"' :: r =>
    let nm := r.takeWhile (fun c => !(c = '"'))
    match r.dropWhile (fun c => !(c = '"')) with
    | '"' :: r2 => if nm.isEmpty then none else some (nm, r2)
    | _ => none
  | _ => none

/-! #### The credential pattern
`(?i)(password|secret|key|token|credential)s?\s*=\s*"[^"]+"`
(`SecurityValidator`, `secretPattern`). The payload is the matched text
(`match[0]`, original case preserved). -/

def kwPassword : List Char := "password".toList
def kwSecret : List Char := "secret".toList
def kwKey : List Char := "key".toList
def kwToken : List Char := "token".toList
def kwCredential : List Char := "credential".toList

/-- The keyword alternation, first alternative wins (no keyword is a prefix
of another, so the order is immaterial). Returns `(consumed, rest)`. -/
def firstKeywordAt (cs : List Char) : Option (List Char × List Char) :=
  match stripCIKeep kwPassword cs with
  | some x => some x
  | none =>
  match stripCIKeep kwSecret cs with
  | some x => some x
  | none =>
  match stripCIKeep kwKey cs with
  | some x => some x
  | none =>
  match stripCIKeep kwToken cs with
  | some x => some x
  | none => stripCIKeep kwCredential cs

/-- Pattern `\s*=\s*"[^"]+"` after the (optional `s` of the) keyword. Returns the
consumed text (which always ends with the closing quote) and the rest. -/
def secretTail (cs : List Char) : Option (List Char × List Char) :=
  let w1 := cs.takeWhile goSpace
  match cs.dropWhile goSpace with
  | '=' :: r2 =>
    let w2 := r2.takeWhile goSpace
    match r2.dropWhile goSpace with
    | '"' :: r4 =>
      let body := r4.takeWhile (fun c => !(c = '"'))
      match r4.dropWhile (fun c => !(c = '"')) with
      | '"' :: r6 =>
        if body.isEmpty then none
        else some ((w1 ++ '=' :: w2 ++ '"' :: body) ++ ['"'], r6)
      | _ => none
    | _ => none
  | _ => none

/-- After the keyword: the optional (case-folded) `s?` with its
backtracking, then `secretTail`.  Taking the `s` is tried first; if the
tail then fails, the star backs off and the tail is retried at the `s`. -/
def secretSuffix : List Char → Option (List Char × List Char)
  | [] => none
  | c :: r2 =>
    if asciiLower c = 's' then
      match secretTail r2 with
      | some (t, rest) => some (c :: t, rest)
      | none => secretTail (c :: r2)
    else secretTail (c :: r2)

/-- Whole credential pattern at one position: keyword, then
`secretSuffix`. -/
def secretMatchAt (cs : List Char) : Option (List Char × List Char) :=
  match firstKeywordAt cs with
  | none => none
  | some (kw, r1) =>
    match secretSuffix r1 with
    | some (t, rest) => some (kw ++ t, rest)
    | none => none

/-- Go `secretPattern.MatchString`. -/
def secretMatch (s : String) : Bool :=
  hasMatch secretMatchAt s.toList

/-! #### Declaration headers (no lookahead involved, valid RE2)
`variable\s+"([^"]+)"\s+\x7b`, `output\s+"..."`, `module\s+"..."`,
`resource\s+"([^"]+)"\s+"([^"]+)"\s+\x7b`. Payload: (matched header text,
captures). -/

/-- One-capture header `<kw>\s+"([^"]+)"\s+\x7b`. -/
def header1At (kw : List Char) (cs : List Char) :
    Option ((List Char × List Char) × List Char) :=
  match stripLit kw cs with
  | none => none
  | some r1 =>
  match wsPlus r1 with
  | none => none
  | some (w1, r2) =>
  match quoted r2 with
  | none => none
  | some (nm, r3) =>
  match wsPlus r3 with
  | none => none
  | some (w2, r4) =>
  match r4 with
  | '\x7b' :: r5 =>
    some ((kw ++ w1 ++ '"' :: nm ++ '"' :: w2 ++ ['\x7b'], nm), r5)
  | _ => none

/-- Pattern `variable\s+"([^"]+)"\s+\x7b` (`varPattern` of `NamingValidator`, and
the header of the block patterns over variables). -/
def varHeaderAt : List Char → Option ((List Char × List Char) × List Char) :=
  header1At "variable".toList

/-- Pattern `output\s+"([^"]+)"\s+\x7b`. -/
def outHeaderAt : List Char → Option ((List Char × List Char) × List Char) :=
  header1At "output".toList

/-- Pattern `module\s+"([^"]+)"\s+\x7b`. -/
def moduleHeaderAt : List Char → Option ((List Char × List Char) × List Char) :=
  header1At "module".toList

/-- Two-capture header `resource\s+"([^"]+)"\s+"([^"]+)"\s+\x7b`
(`resPattern` of `NamingValidator` and the header of `countPattern`). -/
def resHeaderAt (cs : List Char) :
    Option ((List Char × (List Char × List Char)) × List Char) :=
  match stripLit "resource".toList cs with
  | none => none
  | some r1 =>
  match wsPlus r1 with
  | none => none
  | some (w1, r2) =>
  match quoted r2 with
  | none => none
  | some (ty, r3) =>
  match wsPlus r3 with
  | none => none
  | some (w2, r4) =>
  match quoted r4 with
  | none => none
  | some (nm, r5) =>
  match wsPlus r5 with
  | none => none
  | some (w3, r6) =>
  match r6 with
  | '\x7b' :: r7 =>
    some (("resource".toList ++ w1 ++ '"' :: ty ++ '"' :: w2 ++
           '"' :: nm ++ '"' :: w3 ++ ['\x7b'], (ty, nm)), r7)
  | _ => none

/-- Header of `tagPattern`: `resource\s+"(aws_[^"]+)"\s+"([^"]+)"\s+\x7b`
(only `aws_`-prefixed types can match the first capture). -/
def tagHeaderAt (cs : List Char) :
    Option ((List Char × (List Char × List Char)) × List Char) :=
  match resHeaderAt cs with
  | none => none
  | some ((t, (ty, nm)), r) =>
    if "aws_".toList.isPrefixOf ty && 4 < ty.length then
      some ((t, (ty, nm)), r)
    else none

/-- Split off everything up to (and excluding) the last `\x7d` of the list:
`some (before, after)` with `cs = before ++ '\x7d' :: after` and no `\x7d`
in `after`. -/
def splitLastBrace : List Char → Option (List Char × List Char)
  | [] => none
  | c :: cs =>
    match splitLastBrace cs with
    | some (u, v) => some (c :: u, v)
    | none => if c = '\x7d' then some ([], cs) else none

/-- Block pattern `<header>(?:(?:.|\n)(?!^\x7d$))*\x7d` under the modelled
semantics (see the header comment): the block runs from its header to the
last closing brace of the remaining text. Payload: (full matched text,
header captures). -/
def blockAt (h : List Char → Option ((List Char × κ) × List Char))
    (cs : List Char) : Option ((List Char × κ) × List Char) :=
  match h cs with
  | none => none
  | some ((t, k), r) =>
    match splitLastBrace r with
    | none => none
    | some (u, v) => some ((t ++ u ++ ['\x7d'], k), v)

/-! #### Attribute patterns searched inside block texts -/

/-- Pattern `description\s*=\s*"[^"]+"` (`descPattern`). -/
def descAttrAt (cs : List Char) : Option (Unit × List Char) :=
  match stripLit "description".toList cs with
  | none => none
  | some r1 =>
  match eqSkip r1 with
  | none => none
  | some r2 =>
  match quoted r2 with
  | none => none
  | some (_, r3) => some ((), r3)

/-- Pattern `version\s*=\s*"([^"]+)"` (`versionPattern`). -/
def versionAttrAt (cs : List Char) : Option (List Char × List Char) :=
  match stripLit "version".toList cs with
  | none => none
  | some r1 =>
  match eqSkip r1 with
  | none => none
  | some r2 => quoted r2

/-- Pattern `source\s*=\s*"([^"]+)"` (`sourcePattern`). -/
def sourceAttrAt (cs : List Char) : Option (List Char × List Char) :=
  match stripLit "source".toList cs with
  | none => none
  | some r1 =>
  match eqSkip r1 with
  | none => none
  | some r2 => quoted r2

/-- Pattern `sensitive\s*=\s*true` (tail of `sensitivePattern`). -/
def sensAttrAt (cs : List Char) : Option (Unit × List Char) :=
  match stripLit "sensitive".toList cs with
  | none => none
  | some r1 =>
  match eqSkip r1 with
  | none => none
  | some r2 =>
  match stripLit "true".toList r2 with
  | none => none
  | some r3 => some ((), r3)

/-- Pattern `tags\s*=\s*` (`tagsAttrPattern`). -/
def tagsAttrAt (cs : List Char) : Option (Unit × List Char) :=
  match stripLit "tags".toList cs with
  | none => none
  | some r1 =>
  match eqSkip r1 with
  | none => none
  | some r2 => some ((), r2)

/-- Go `sensitivePattern.MatchString`: a variable header occurs and the
`sensitive = true` attribute occurs somewhere after the leftmost header's
opening brace (the modelled lookahead is vacuous, so the gap matches
anything; a hit after any later header is also after the first). -/
def sensitiveMatch (s : String) : Bool :=
  match firstMatch varHeaderAt s.toList with
  | some (_, rest) => hasMatch sensAttrAt rest
  | none => false

/-- Tail of `countPattern`: `\s+count\s*=\s*length\(([^)]+)\)`.
Payload: the captured expression. -/
def countTailAt (cs : List Char) : Option (List Char × List Char) :=
  match wsPlus cs with
  | none => none
  | some (_, r1) =>
  match stripLit "count".toList r1 with
  | none => none
  | some r2 =>
  match eqSkip r2 with
  | none => none
  | some r3 =>
  match stripLit "length".toList r3 with
  | none => none
  | some r4 =>
  match r4 with
  | '(' :: r5 =>
    let cv := r5.takeWhile (fun c => !(c = ')'))
    match r5.dropWhile (fun c => !(c = ')')) with
    | ')' :: r6 => if cv.isEmpty then none else some (cv, r6)
    | _ => none
  | _ => none

/-- Go `countPattern`: a resource header, then a greedy unrestricted gap, then
the `count = length(...)` tail — under backtracking the tail binds at its
last occurrence. Payload: (resource name, captured expression). -/
def countBlockAt (cs : List Char) :
    Option ((List Char × List Char) × List Char) :=
  match resHeaderAt cs with
  | none => none
  | some ((_, (_, nm)), r) =>
    match lastMatch countTailAt r with
    | some (cv, rest) => some ((nm, cv), rest)
    | none => none

/-- Tail of `sgPattern` after `ingress\s+\x7b[^\x7d]*`:
`cidr_blocks\s*=\s*\[\s*"0\.0\.0\.0/0"\s*\]` (case-folded). -/
def cidrTailAt (cs : List Char) : Option (Unit × List Char) :=
  match stripCIKeep "cidr_blocks".toList cs with
  | none => none
  | some (_, r1) =>
  match eqSkip r1 with
  | none => none
  | some r2 =>
  match r2 with
  | '[' :: r3 =>
    match r3.dropWhile goSpace with
    | '"' :: r4 =>
      match stripLit "0.0.0.0/0".toList r4 with
      | none => none
      | some r5 =>
      match r5 with
      | '"' :: r6 =>
        match r6.dropWhile goSpace with
        | ']' :: r7 => some ((), r7)
        | _ => none
      | _ => none
    | _ => none
  | _ => none

/-- Go `sgPattern`:
`(?i)ingress\s+\x7b[^\x7d]*cidr_blocks\s*=\s*\[\s*"0\.0\.0\.0/0"\s*\]`.
The `[^\x7d]*` gap is greedy, so the cidr tail binds at its last occurrence
inside the brace-free zone after the `\x7b`; every character the tail
matches is itself brace-free, so searching the zone is exact. -/
def ingressMatchAt (cs : List Char) : Option (Unit × List Char) :=
  match stripCIKeep "ingress".toList cs with
  | none => none
  | some (_, r1) =>
  match wsPlus r1 with
  | none => none
  | some (_, r2) =>
  match r2 with
  | '\x7b' :: r3 =>
    let zone := r3.takeWhile (fun c => !(c = '\x7d'))
    match lastMatch cidrTailAt zone with
    | some (_, restZ) =>
      some ((), restZ ++ r3.dropWhile (fun c => !(c = '\x7d')))
    | none => none
  | _ => none

/-! ### Helper predicates over bundles (the source's helper functions) -/

/-- Go `hasFile`: exact key lookup. -/
def hasFile (b : Bundle) (name : String) : Bool :=
  (lookupB b name).isSome

/-- Go `hasMainTF`: only the exact name `main.tf`. -/
def hasMainTF (b : Bundle) : Bool :=
  hasFile b "main.tf"

/-- Go `hasVariablesTF`: exact `variables.tf` or any `*_variables.tf`. -/
def hasVariablesTF (b : Bundle) : Bool :=
  b.any (fun p => p.1 == "variables.tf" || goHasSuffix p.1 "_variables.tf")

/-- Go `hasOutputsTF`: exact `outputs.tf` or any `*_outputs.tf`. -/
def hasOutputsTF (b : Bundle) : Bool :=
  b.any (fun p => p.1 == "outputs.tf" || goHasSuffix p.1 "_outputs.tf")

/-- Go `hasReadmeMD`: exact `README.md` or exact `readme.md`. -/
def hasReadmeMD (b : Bundle) : Bool :=
  hasFile b "README.md" || hasFile b "readme.md"

/-- Go `hasDir`: some key starts with `dir ++ "/"`. -/
def hasDir (b : Bundle) (dir : String) : Bool :=
  b.any (fun p => startsWithStr p.1 (dir ++ "/"))

/-! ### The issues each validator constructs, field for field -/

def missingMainIssue : ValidationIssue :=
  { message := "Missing main.tf file"
    severity := .error
    category := .struct
    bestPractice := "Include a main.tf file with core resource definitions"
    suggestion := "Create a main.tf file with core resource definitions" }

def missingVarsIssue : ValidationIssue :=
  { message := "Missing variables.tf file"
    severity := .warning
    category := .struct
    bestPractice := "Include a variables.tf file for input variable definitions"
    suggestion := "Create a variables.tf file with input variable definitions" }

def missingOutsIssue : ValidationIssue :=
  { message := "Missing outputs.tf file"
    severity := .warning
    category := .struct
    bestPractice := "Include an outputs.tf file for output definitions"
    suggestion := "Create an outputs.tf file with output definitions" }

def tooLargeIssue (name : String) (lc : Nat) : ValidationIssue :=
  { message := "File " ++ name ++ " is too large (" ++ toString lc ++
      " lines). Consider splitting it into multiple files."
    severity := .warning
    category := .maintenance
    file := name
    bestPractice := "Keep Terraform files under 500 lines for better maintainability"
    suggestion := "Split the file into multiple logical files based on resource types or functionality" }

def standardFilesIssue (missing : List String) : ValidationIssue :=
  { message := "Module is missing standard files: " ++ String.intercalate ", " missing
    severity := .info
    category := .struct
    bestPractice := "Follow standard module structure with main.tf, variables.tf, outputs.tf, and README.md"
    suggestion := "Add the missing files to follow the standard module structure" }

def hyphenIssue (name nm : String) : ValidationIssue :=
  { message := "Variable name \x27" ++ nm ++ "\x27 uses hyphens instead of underscores"
    severity := .warning
    category := .naming
    file := name
    bestPractice := "Use underscores, not hyphens, in variable names"
    suggestion := "Rename variable \x27" ++ nm ++ "\x27 to use underscores instead of hyphens" }

def upperIssue (name nm : String) : ValidationIssue :=
  { message := "Variable name \x27" ++ nm ++ "\x27 uses uppercase letters"
    severity := .info
    category := .naming
    file := name
    bestPractice := "Use lowercase letters in variable names"
    suggestion := "Rename variable \x27" ++ nm ++ "\x27 to use all lowercase letters" }

def resNamingIssue (name nm : String) : ValidationIssue :=
  { message := "Resource name \x27" ++ nm ++ "\x27 doesn\x27t follow naming convention"
    severity := .info
    category := .naming
    file := name
    bestPractice := "Use underscores in resource names for readability"
    suggestion := "Rename resource \x27" ++ nm ++ "\x27 to use underscores" }

def secretIssue (name : String) (m : List Char) : ValidationIssue :=
  { message := "Possible hardcoded secret found: " ++ String.mk m
    severity := .error
    category := .security
    file := name
    bestPractice := "Never hardcode sensitive values in Terraform configuration"
    suggestion := "Use variables with sensitive = true or integrate with a secrets management solution" }

def sensitiveVarIssue (name : String) : ValidationIssue :=
  { message := "Sensitive variables should be marked with sensitive = true"
    severity := .warning
    category := .security
    file := name
    bestPractice := "Mark sensitive variables with sensitive = true"
    suggestion := "Add sensitive = true to variable definitions containing sensitive information" }

def sgIssue (name : String) : ValidationIssue :=
  { message := "Security group allows access from 0.0.0.0/0 (any IP)"
    severity := .warning
    category := .security
    file := name
    bestPractice := "Restrict security group access to specific IP ranges"
    suggestion := "Replace 0.0.0.0/0 with specific IP ranges or use a variable for allowed IPs" }

def readmeIssue : ValidationIssue :=
  { message := "Missing README.md file"
    severity := .warning
    category := .documentation
    bestPractice := "Include a README.md file with module documentation"
    suggestion := "Create a README.md file with module usage examples and documentation" }

def varDescIssue (name nm : String) : ValidationIssue :=
  { message := "Variable \x27" ++ nm ++ "\x27 is missing a description"
    severity := .warning
    category := .documentation
    file := name
    bestPractice := "Include descriptions for all variables"
    suggestion := "Add a description attribute to variable \x27" ++ nm ++ "\x27" }

def outDescIssue (name nm : String) : ValidationIssue :=
  { message := "Output \x27" ++ nm ++ "\x27 is missing a description"
    severity := .info
    category := .documentation
    file := name
    bestPractice := "Include descriptions for all outputs"
    suggestion := "Add a description attribute to output \x27" ++ nm ++ "\x27" }

def moduleVersionIssue (name nm : String) : ValidationIssue :=
  { message := "Module \x27" ++ nm ++ "\x27 does not specify a version"
    severity := .warning
    category := .maintenance
    file := name
    bestPractice := "Always pin module versions for consistency and stability"
    suggestion := "Add version constraint to module \x27" ++ nm ++ "\x27" }

def localModulesIssue : ValidationIssue :=
  { message := "Local modules directory exists but modules are not used"
    severity := .info
    category := .maintenance
    bestPractice := "Use a modular approach for complex configurations"
    suggestion := "Consider using the modules in your configuration for better organization" }

def missingTagsIssue (name nm ty : String) : ValidationIssue :=
  { message := "Resource \x27" ++ nm ++ "\x27 of type \x27" ++ ty ++ "\x27 is missing tags"
    severity := .info
    category := .maintenance
    file := name
    bestPractice := "Apply consistent tagging to all resources for better management"
    suggestion := "Add tags to resource \x27" ++ nm ++ "\x27" }

def countIssue (name nm cv : String) : ValidationIssue :=
  { message := "Resource \x27" ++ nm ++ "\x27 uses count with length(" ++ cv ++
      "), consider using for_each"
    severity := .info
    category := .maintenance
    file := name
    bestPractice := "Use for_each instead of count when iterating over complex values"
    suggestion := "Change \x27count = length(" ++ cv ++ ")\x27 to \x27for_each = toset(" ++
      cv ++ ")\x27" }

/-! ### The six validators -/

/-- Does the file name end in `.tf`? (the guard of every per-file scan). -/
def tfName (name : String) : Bool :=
  goHasSuffix name ".tf"

/-- The per-file oversize check of `StructureValidator`. -/
def monolithicIssues (b : Bundle) : List ValidationIssue :=
  b.flatMap fun p =>
    if tfName p.1 then
      if 500 < lineCount p.2 then [tooLargeIssue p.1 (lineCount p.2)] else []
    else []

/-- The four canonical file names of the aggregate check. -/
def moduleFilesList : List String :=
  ["main.tf", "variables.tf", "outputs.tf", "README.md"]

/-- The aggregate missing-standard-files check of `StructureValidator`. -/
def standardFilesIssues (b : Bundle) : List ValidationIssue :=
  let missing := moduleFilesList.filter (fun f => !hasFile b f)
  if missing.isEmpty then [] else [standardFilesIssue missing]

/-- Go `StructureValidator.Validate`. -/
def structureValidate (b : Bundle) : List ValidationIssue :=
  (if hasMainTF b then [] else [missingMainIssue])
  ++ (if hasVariablesTF b then [] else [missingVarsIssue])
  ++ (if hasOutputsTF b then [] else [missingOutsIssue])
  ++ monolithicIssues b
  ++ standardFilesIssues b

/-- Go `NamingValidator.Validate`: one pass for variable names, then one pass
for resource names. -/
def namingValidate (b : Bundle) : List ValidationIssue :=
  (b.flatMap fun p =>
    if tfName p.1 then
      (scanAll varHeaderAt p.2.toList).flatMap fun tc =>
        let nm := String.mk tc.2
        (if goContains nm "-" then [hyphenIssue p.1 nm] else [])
        ++ (if !(lowerStr nm == nm) then [upperIssue p.1 nm] else [])
    else [])
  ++ (b.flatMap fun p =>
    if tfName p.1 then
      (scanAll resHeaderAt p.2.toList).flatMap fun tc =>
        let nm := String.mk tc.2.2
        if goContains nm "_" && !(goContains nm "-") then []
        else [resNamingIssue p.1 nm]
    else [])

/-- Rule logic of `SecurityValidator.Validate`: the issue list its three
scan loops (hardcoded credentials, unmarked sensitive variables, open
ingress) construct.  A Go call never delivers it: the method panics at
`sensitivePattern` right after the first loop — see `securityValidateGo`
in the call layer below. -/
def securityValidate (b : Bundle) : List ValidationIssue :=
  (b.flatMap fun p =>
    if tfName p.1 then (scanAll secretMatchAt p.2.toList).map (secretIssue p.1)
    else [])
  ++ (b.flatMap fun p =>
    if tfName p.1 && goContains (lowerStr p.1) "variable" then
      if !(sensitiveMatch p.2) && secretMatch p.2 then [sensitiveVarIssue p.1]
      else []
    else [])
  ++ (b.flatMap fun p =>
    if tfName p.1 then (scanAll ingressMatchAt p.2.toList).map (fun _ => sgIssue p.1)
    else [])

/-- Rule logic of `DocumentationValidator.Validate`.  A Go call never
delivers it: the method panics at its `varPattern` — see
`documentationValidateGo`. -/
def documentationValidate (b : Bundle) : List ValidationIssue :=
  (if hasReadmeMD b then [] else [readmeIssue])
  ++ (b.flatMap fun p =>
    if tfName p.1 && goContains (lowerStr p.1) "variable" then
      (scanAll (blockAt varHeaderAt) p.2.toList).flatMap fun tc =>
        if hasMatch descAttrAt tc.1 then [] else [varDescIssue p.1 (String.mk tc.2)]
    else [])
  ++ (b.flatMap fun p =>
    if tfName p.1 && goContains (lowerStr p.1) "output" then
      (scanAll (blockAt outHeaderAt) p.2.toList).flatMap fun tc =>
        if hasMatch descAttrAt tc.1 then [] else [outDescIssue p.1 (String.mk tc.2)]
    else [])

/-- Rule logic of `ModuleValidator.Validate`.  A Go call never delivers
it: the method panics at `modulePattern` — see `moduleValidateGo`. -/
def moduleValidate (b : Bundle) : List ValidationIssue :=
  (b.flatMap fun p =>
    if tfName p.1 then
      (scanAll (blockAt moduleHeaderAt) p.2.toList).flatMap fun tc =>
        match firstMatch sourceAttrAt tc.1 with
        | some (src, _) =>
          let s := String.mk src
          if (goContains s "github.com" || goContains s "terraform-aws-modules"
              || goContains s "registry.terraform.io")
              && !(hasMatch versionAttrAt tc.1) then
            [moduleVersionIssue p.1 (String.mk tc.2)]
          else []
        | none => []
    else [])
  ++ (if hasDir b "modules" && !(b.any fun p => goContains p.2 "module ") then
        [localModulesIssue]
      else [])

/-- Rule logic of `ResourceValidator.Validate`.  A Go call never delivers
it: the method panics at `tagPattern` — see `resourceValidateGo` (its
count loop moreover declares `resType` without using it, one of the Go
compile errors of `validation.go`). -/
def resourceValidate (b : Bundle) : List ValidationIssue :=
  (b.flatMap fun p =>
    if tfName p.1 then
      (scanAll (blockAt tagHeaderAt) p.2.toList).flatMap fun tc =>
        let ty := String.mk tc.2.1
        if goContains ty "aws_iam_role_policy" || goContains ty "aws_iam_policy"
            || goContains ty "aws_route" then []
        else if (startsWithStr ty "aws_" || startsWithStr ty "azurerm_"
                 || startsWithStr ty "google_")
                && !(hasMatch tagsAttrAt tc.1) then
          [missingTagsIssue p.1 (String.mk tc.2.2) ty]
        else []
    else [])
  ++ (b.flatMap fun p =>
    if tfName p.1 then
      (scanAll countBlockAt p.2.toList).map fun nc =>
        countIssue p.1 (String.mk nc.1) (String.mk nc.2)
    else [])

/-! ### The engine -/

/-- Rule logic of `ValidationEngine.ValidateConfiguration`: the six
registered validators in registration order, concatenated, then the
severity tally (the source's `switch` accumulation is the same count as
`countP` per tier).  This is the result a call would deliver if every
pattern compiled; what a Go call actually produces is
`validateConfigurationGo`, which always aborts. -/
def validateConfiguration (b : Bundle) : ValidationResult :=
  let issues := structureValidate b ++ namingValidate b ++ securityValidate b
    ++ documentationValidate b ++ moduleValidate b ++ resourceValidate b
  { issues := issues
    fileCount := b.length
    errorCount := issues.countP (fun i => i.severity == Severity.error)
    warnCount := issues.countP (fun i => i.severity == Severity.warning)
    infoCount := issues.countP (fun i => i.severity == Severity.info) }

/-! ### The scaffold generators (`generateMainTF` etc.)

Each Go generator ignores its `config` argument and returns a fixed raw
string literal; they are modelled as string constants (braces written
`\x7b`/`\x7d`, apostrophes `\x27`). -/

def generateMainTF : String :=
  "# Main configuration for Terraform\n# Contains the primary resources defined in this module\n\nprovider \"aws\" \x7b\n  region = var.region\n\x7d\n\n# Example resource:\n# resource \"aws_s3_bucket\" \"example\" \x7b\n#   bucket = var.bucket_name\n#   tags   = var.tags\n# \x7d\n\n# Example module usage:\n# module \"vpc\" \x7b\n#   source  = \"terraform-aws-modules/vpc/aws\"\n#   version = \"3.14.0\"\n#\n#   name = var.vpc_name\n#   cidr = var.vpc_cidr\n#\n#   azs             = var.availability_zones\n#   private_subnets = var.private_subnets\n#   public_subnets  = var.public_subnets\n#\n#   tags = var.tags\n# \x7d\n"

def generateVariablesTF : String :=
  "# Input variables for the module\n\nvariable \"region\" \x7b\n  description = \"AWS region where resources will be created\"\n  type        = string\n  default     = \"us-west-2\"\n\x7d\n\n# Example variable:\n# variable \"bucket_name\" \x7b\n#   description = \"Name of the S3 bucket to create\"\n#   type        = string\n# \x7d\n\n# Example variable with validation:\n# variable \"environment\" \x7b\n#   description = \"Environment where resources will be deployed\"\n#   type        = string\n#   validation \x7b\n#     condition     = contains([\"dev\", \"staging\", \"prod\"], var.environment)\n#     error_message = \"Environment must be one of: dev, staging, prod.\"\n#   \x7d\n# \x7d\n\nvariable \"tags\" \x7b\n  description = \"A map of tags to apply to all resources\"\n  type        = map(string)\n  default     = \x7b\x7d\n\x7d\n"

def generateOutputsTF : String :=
  "# Output values from the module\n\n# Example output:\n# output \"bucket_id\" \x7b\n#   description = \"The ID of the S3 bucket\"\n#   value       = aws_s3_bucket.example.id\n# \x7d\n\n# Example output with sensitive data:\n# output \"database_password\" \x7b\n#   description = \"The password for the database\"\n#   value       = aws_db_instance.example.password\n#   sensitive   = true\n# \x7d\n"

def generateReadmeMD : String :=
  "# Terraform Module\n\nThis module provisions AWS resources following best practices.\n\n## Usage\n\n```hcl\nmodule \"example\" \x7b\n  source = \"./path/to/module\"\n\n  region = \"us-west-2\"\n  \n  tags = \x7b\n    Environment = \"production\"\n    Project     = \"example\"\n  \x7d\n\x7d\n```\n\n## Requirements\n\n| Name | Version |\n|------|---------|\n| terraform | >= 1.0.0 |\n| aws | >= 4.0.0 |\n\n## Inputs\n\n| Name | Description | Type | Default | Required |\n|------|-------------|------|---------|:--------:|\n| region | AWS region where resources will be created | `string` | `\"us-west-2\"` | no |\n| tags | A map of tags to apply to all resources | `map(string)` | `\x7b\x7d` | no |\n\n## Outputs\n\nNo outputs.\n\n## Resources\n\nNo resources.\n"

/-! ### The improvement synthesizer -/

/-- Rule logic of `ValidationEngine.SuggestImprovements`: scaffold each
absent canonical role, then for every Error/Warning issue that names a
file and carries a suggestion, initialise that file's entry from the
original bundle (or `""`) if absent and prepend a `// TODO:` line carrying
the issue's message.  The association list models the Go `improvements`
map.  A Go call never delivers it — it aborts inside its initial
`ValidateConfiguration` call; see `suggestImprovementsGo`. -/
def suggestImprovements (b : Bundle) : Bundle :=
  let imp0 : Bundle := []
  let imp1 := if hasMainTF b then imp0
    else insertB imp0 "main.tf" ("// main.tf\n" ++ generateMainTF)
  let imp2 := if hasVariablesTF b then imp1
    else insertB imp1 "variables.tf" ("// variables.tf\n" ++ generateVariablesTF)
  let imp3 := if hasOutputsTF b then imp2
    else insertB imp2 "outputs.tf" ("// outputs.tf\n" ++ generateOutputsTF)
  let imp4 := if hasReadmeMD b then imp3
    else insertB imp3 "README.md" generateReadmeMD
  (validateConfiguration b).issues.foldl (fun imp issue =>
    if (issue.severity == Severity.error || issue.severity == Severity.warning)
        && !(issue.file == "") && !(issue.suggestion == "") then
      let imp1 := if (lookupB imp issue.file).isSome then imp
        else insertB imp issue.file ((lookupB b issue.file).getD "")
      insertB imp1 issue.file
        ("// TODO: " ++ issue.message ++ "\n" ++ (lookupB imp1 issue.file).getD "")
    else imp) imp4

/-- Merging the suggestion map over the original bundle: suggested content
replaces the original entry of the same name; suggestions for names absent
from the original are appended. -/
def mergeBundle (orig imp : Bundle) : Bundle :=
  orig.map (fun p => (p.1, (lookupB imp p.1).getD p.2))
  ++ imp.filter (fun p => !(lookupB orig p.1).isSome)

/-! ### The call layer: what a Go call of each validator delivers

The pattern texts below are the verbatim regular-expression literals of
`validation.go` (braces written `\x7b`/`\x7d`), listed per validator in
the order the validator executes `regexp.MustCompile` on them. -/

/-- Pattern `varPattern` of `NamingValidator` (line 265). -/
def namingVarPatternSrc : String :=
  "variable\\s+\"([^\"]+)\"\\s+\x7b"

/-- Pattern `resPattern` of `NamingValidator` (line 296). -/
def namingResPatternSrc : String :=
  "resource\\s+\"([^\"]+)\"\\s+\"([^\"]+)\"\\s+\x7b"

/-- Pattern `secretPattern` of `SecurityValidator` (line 334). -/
def secretPatternSrc : String :=
  "(?i)(password|secret|key|token|credential)s?\\s*=\\s*\"[^\"]+\""

/-- Pattern `sensitivePattern` of `SecurityValidator` (line 352); contains
the lookahead `(?!` that Go regexp rejects. -/
def sensitivePatternSrc : String :=
  "variable\\s+\"([^\"]+)\"\\s+\x7b(?:(?:.|\\n)(?!^\\\x7d$))*sensitive\\s*=\\s*true"

/-- Pattern `sgPattern` of `SecurityValidator` (line 369). -/
def sgPatternSrc : String :=
  "(?i)ingress\\s+\x7b[^\x7d]*cidr_blocks\\s*=\\s*\\[\\s*\"0\\.0\\.0\\.0/0\"\\s*\\]"

/-- Pattern `varPattern` of `DocumentationValidator` (line 413); contains
`(?!`. -/
def docVarPatternSrc : String :=
  "variable\\s+\"([^\"]+)\"\\s+\x7b(?:(?:.|\\n)(?!^\\\x7d$))*\x7d"

/-- Pattern `descPattern` of `DocumentationValidator` (line 414). -/
def descPatternSrc : String :=
  "description\\s*=\\s*\"[^\"]+\""

/-- Pattern `outPattern` of `DocumentationValidator` (line 436); contains
`(?!`. -/
def docOutPatternSrc : String :=
  "output\\s+\"([^\"]+)\"\\s+\x7b(?:(?:.|\\n)(?!^\\\x7d$))*\x7d"

/-- Pattern `modulePattern` of `ModuleValidator` (line 473); contains
`(?!`. -/
def modulePatternSrc : String :=
  "module\\s+\"([^\"]+)\"\\s+\x7b(?:(?:.|\\n)(?!^\\\x7d$))*\x7d"

/-- Pattern `sourcePattern` of `ModuleValidator` (line 474). -/
def sourcePatternSrc : String :=
  "source\\s*=\\s*\"([^\"]+)\""

/-- Pattern `versionPattern` of `ModuleValidator` (line 475). -/
def versionPatternSrc : String :=
  "version\\s*=\\s*\"([^\"]+)\""

/-- Pattern `tagPattern` of `ResourceValidator` (line 538); contains
`(?!`. -/
def tagPatternSrc : String :=
  "resource\\s+\"(aws_[^\"]+)\"\\s+\"([^\"]+)\"\\s+\x7b(?:(?:.|\\n)(?!^\\\x7d$))*\x7d"

/-- Pattern `tagsAttrPattern` of `ResourceValidator` (line 539). -/
def tagsAttrPatternSrc : String :=
  "tags\\s*=\\s*"

/-- Pattern `countPattern` of `ResourceValidator` (line 574); contains
`(?!`. -/
def countPatternSrc : String :=
  "resource\\s+\"([^\"]+)\"\\s+\"([^\"]+)\"\\s+\x7b(?:(?:.|\\n)(?!^\\\x7d$))*\\s+count\\s*=\\s*length\\(([^)]+)\\)"

/-- Go flag letters accepted inside a `(?flags)` / `(?flags:` group. -/
def goFlagChar (c : Char) : Bool :=
  c = 'i' || c = 'm' || c = 's' || c = 'U'

/-- Go's `regexp/syntax` accepts the continuation of a group intro `(?`
only when it is `:`, a named capture `P<…`, or a flag sequence over
`[imsU]` (optionally `-` and more flags) ending in `:` or `)`.  Anything
else — notably the Perl lookahead `(?!` — is rejected as
`invalid or unsupported Perl syntax`, and `regexp.MustCompile` panics.
This transcribes that acceptance decision, the only part of pattern
parsing on which the source's patterns differ. -/
def goGroupIntroOk : List Char → Bool
  | ':' :: _ => true
  | 'P' :: '<' :: _ => true
  | cs =>
    match cs.dropWhile goFlagChar with
    | ':' :: _ => true
    | ')' :: _ => true
    | '-' :: r2 =>
      match r2.dropWhile goFlagChar with
      | ':' :: _ => true
      | ')' :: _ => true
      | _ => false
    | _ => false

/-- Scan a pattern for group intros `(?` and check each continuation. -/
def goGroupsOk : List Char → Bool
  | '(' :: '?' :: rest => goGroupIntroOk rest && goGroupsOk rest
  | _ :: rest => goGroupsOk rest
  | [] => true

/-- Does Go's `regexp` package accept the pattern (no unsupported group
construct)? -/
def goRegexpAccepts (pat : String) : Bool :=
  goGroupsOk pat.toList

/-- Go `regexp.MustCompile` over the patterns a function compiles, in
program order: the first unsupported pattern panics (returned as the
error value; the call delivers nothing). -/
def compileAll (pats : List String) : Except String Unit :=
  match pats.find? (fun p => !goRegexpAccepts p) with
  | some p => Except.error p
  | none => Except.ok ()

/-- A call of one Go validator method: its `MustCompile`s panic at the
first unsupported pattern and the call delivers nothing (the scan loops
interleaved between the compiles are unobservable in the returned value);
otherwise the method returns its rule logic's issue list. -/
def runValidator (pats : List String) (logic : List ValidationIssue) :
    Except String (List ValidationIssue) :=
  (compileAll pats).map (fun _ => logic)

/-- A call of `StructureValidator.Validate` (it compiles no patterns). -/
def structureValidateGo (b : Bundle) : Except String (List ValidationIssue) :=
  Except.ok (structureValidate b)

/-- A call of `NamingValidator.Validate`. -/
def namingValidateGo (b : Bundle) : Except String (List ValidationIssue) :=
  runValidator [namingVarPatternSrc, namingResPatternSrc] (namingValidate b)

/-- A call of `SecurityValidator.Validate`: panics at `sensitivePattern`
(line 352) after the credential scan, before any issue can be returned. -/
def securityValidateGo (b : Bundle) : Except String (List ValidationIssue) :=
  runValidator [secretPatternSrc, sensitivePatternSrc, sgPatternSrc]
    (securityValidate b)

/-- A call of `DocumentationValidator.Validate`: panics at its
`varPattern`. -/
def documentationValidateGo (b : Bundle) : Except String (List ValidationIssue) :=
  runValidator [docVarPatternSrc, descPatternSrc, docOutPatternSrc]
    (documentationValidate b)

/-- A call of `ModuleValidator.Validate`: panics at `modulePattern`. -/
def moduleValidateGo (b : Bundle) : Except String (List ValidationIssue) :=
  runValidator [modulePatternSrc, sourcePatternSrc, versionPatternSrc]
    (moduleValidate b)

/-- A call of `ResourceValidator.Validate`: panics at `tagPattern`. -/
def resourceValidateGo (b : Bundle) : Except String (List ValidationIssue) :=
  runValidator [tagPatternSrc, tagsAttrPatternSrc, countPatternSrc]
    (resourceValidate b)

/-- A call of `ValidationEngine.ValidateConfiguration`: the engine runs
the validators in registration order and a panic in any of them aborts the
call; were every pattern supported, the delivered result would be exactly
`validateConfiguration b`.  In fact every call aborts inside
`SecurityValidator.Validate`. -/
def validateConfigurationGo (b : Bundle) : Except String ValidationResult := do
  let _ ← structureValidateGo b
  let _ ← namingValidateGo b
  let _ ← securityValidateGo b
  let _ ← documentationValidateGo b
  let _ ← moduleValidateGo b
  let _ ← resourceValidateGo b
  Except.ok (validateConfiguration b)

/-- A call of `ValidationEngine.SuggestImprovements`: it first calls
`ValidateConfiguration` (line 129) and propagates its abort, so it never
reaches the scaffolding passes; were the engine to return, the delivered
map would be exactly `suggestImprovements b`. -/
def suggestImprovementsGo (b : Bundle) : Except String Bundle := do
  let _ ← validateConfigurationGo b
  Except.ok (suggestImprovements b)

/-! ### Concrete bundles and predicates the claims are settled on -/

/-- Two iteration orders of the same two-file map; each file declares one
hyphenated variable, so each contributes one naming warning. -/
def c2OrderA : Bundle :=
  [("a.tf", "variable \"a-b\" \x7b"), ("b.tf", "variable \"c-d\" \x7b")]

def c2OrderB : Bundle :=
  [("b.tf", "variable \"c-d\" \x7b"), ("a.tf", "variable \"a-b\" \x7b")]

/-- The spec's non-canonical bundle `\x7b"main": x, "vars": y, "output.tf": z\x7d`. -/
def c3Noncanon (x y z : String) : Bundle :=
  [("main", x), ("vars", y), ("output.tf", z)]

/-- The spec's canonical bundle `\x7b"main.tf": x, "variables.tf": y, "outputs.tf": z\x7d`. -/
def c3Canon (x y z : String) : Bundle :=
  [("main.tf", x), ("variables.tf", y), ("outputs.tf", z)]

/-- A complete module whose `main.tf` holds one hardcoded credential. -/
def c4Bundle : Bundle :=
  [("main.tf", "password = \"x\""), ("variables.tf", ""), ("outputs.tf", ""),
   ("README.md", "")]

/-- The credential literal of the spec's recall property. -/
def c5Content : String := "password = \"secret123\""

/-- That literal inside a file whose name does not end in `.tf`. -/
def c5NonTfBundle : Bundle := [("creds", c5Content)]

/-- The same literal inside a `.tf` file. -/
def c5TfBundle : Bundle := [("main.tf", c5Content)]

/-- A variable declared, without description, in `main.tf`. -/
def c8Content : String := "variable \"x\" \x7b\n  type = string\n\x7d"

def c8Bundle : Bundle := [("main.tf", c8Content)]

/-- An `azurerm_`-typed resource without a `tags` attribute. -/
def c9Content : String :=
  "resource \"azurerm_storage_account\" \"sa\" \x7b\n  name = \"x\"\n\x7d"

def c9Bundle : Bundle := [("main.tf", c9Content)]

/-- Files filling the variables/outputs roles only through the
`_variables.tf` / `_outputs.tf` suffix rule. -/
def c10Bundle : Bundle := [("net_variables.tf", ""), ("net_outputs.tf", "")]

/-- The characters of `password = "secret123"`. -/
def secretLiteral : List Char := "password = \"secret123\"".toList

/-- The characters of `password`. -/
def pwWord : List Char := "password".toList

/-- An Error-severity Security finding. -/
def isErrorSecurity (i : ValidationIssue) : Bool :=
  i.severity == Severity.error && i.category == Category.security

/-- The itemised missing-`main.tf` Structure finding, by severity, category
and message. -/
def isMissingMainFinding (i : ValidationIssue) : Bool :=
  i.severity == Severity.error && i.category == Category.struct
    && i.message == "Missing main.tf file"

/-- The itemised missing-`variables.tf` Structure finding. -/
def isMissingVarsFinding (i : ValidationIssue) : Bool :=
  i.severity == Severity.warning && i.category == Category.struct
    && i.message == "Missing variables.tf file"

/-- The itemised missing-`outputs.tf` Structure finding. -/
def isMissingOutsFinding (i : ValidationIssue) : Bool :=
  i.severity == Severity.warning && i.category == Category.struct
    && i.message == "Missing outputs.tf file"

/-! ## Theorems -/

/-- Each issue falls in exactly one severity tier, so the three tallies sum
to the number of issues. -/
theorem countP_sev_sum (l : List ValidationIssue) :
    l.countP (fun i => i.severity == Severity.error)
      + l.countP (fun i => i.severity == Severity.warning)
      + l.countP (fun i => i.severity == Severity.info) = l.length := by
  induction l with
  | nil => rfl
  | cons a t ih =>
    simp only [List.countP_cons, List.length_cons]
    cases h : a.severity <;> simp [h] <;> omega

/-- C1: for every bundle (in every iteration order), the result of
`ValidateConfiguration` satisfies
`ErrorCount + WarnCount + InfoCount = length Issues`, and each of the three
counts is non-negative. -/
theorem claim_C1 (b : Bundle) :
    (validateConfiguration b).errorCount + (validateConfiguration b).warnCount
        + (validateConfiguration b).infoCount
      = (validateConfiguration b).issues.length
    ∧ 0 ≤ (validateConfiguration b).errorCount
    ∧ 0 ≤ (validateConfiguration b).warnCount
    ∧ 0 ≤ (validateConfiguration b).infoCount := by
  refine ⟨?_, Nat.zero_le _, Nat.zero_le _, Nat.zero_le _⟩
  exact countP_sev_sum _

/-- C2 (against the claim): the two bundles are the same map — a
permutation of each other — yet the finding sequences differ, because the
per-file naming warnings follow the iteration order Go leaves unspecified. -/
theorem claim_C2_counterexample :
    c2OrderA.Perm c2OrderB ∧
    ((validateConfiguration c2OrderA).issues
      == (validateConfiguration c2OrderB).issues) = false := by
  constructor
  · decide
  · decide

/-- C4 (against the claim): on `c4Bundle` one hardcoded-credential Error is
found; merging the suggestion map (whose `// TODO:` line quotes the matched
credential text) and re-validating yields two credential Errors. -/
theorem claim_C4_bug :
    (validateConfiguration c4Bundle).errorCount = 1 ∧
    (validateConfiguration
        (mergeBundle c4Bundle (suggestImprovements c4Bundle))).errorCount = 2 := by
  constructor
  · decide
  · decide

/-- C8 (against the claim): `main.tf` declares variable `x` (the header
scanner sees it) with no description, yet no documentation finding naming
`x` is produced, because the description check only reads files whose
lower-cased name contains `variable`. -/
theorem claim_C8_bug :
    (scanAll varHeaderAt c8Content.toList).map (fun tc => String.mk tc.2) = ["x"] ∧
    (validateConfiguration c8Bundle).issues.countP
      (fun i => i.category == Category.documentation
        && i.message == "Variable \x27x\x27 is missing a description") = 0 := by
  constructor
  · decide
  · decide

/-- C9 (against the claim): `main.tf` declares an `azurerm_`-typed resource
(the generic resource scanner sees it) without tags, yet no missing-tags
finding is produced, because `tagPattern` only matches `aws_`-typed
resources. -/
theorem claim_C9_bug :
    (scanAll resHeaderAt c9Content.toList).map
        (fun tc => (String.mk tc.2.1, String.mk tc.2.2))
      = [("azurerm_storage_account", "sa")] ∧
    (validateConfiguration c9Bundle).issues.countP
      (fun i => i.message
        == "Resource \x27sa\x27 of type \x27azurerm_storage_account\x27 is missing tags")
      = 0 := by
  constructor
  · decide
  · decide

/-! ### Shape lemmas: which categories / severities each validator can emit -/

/-- Membership in a guard whose negative branch is empty. -/
theorem mem_of_ite_nil {α} {i : α} {c : Prop} [Decidable c] {l : List α}
    (h : i ∈ if c then l else []) : i ∈ l := by
  split at h
  · exact h
  · exact absurd h (List.not_mem_nil i)

/-- Membership in a guard whose positive branch is empty. -/
theorem mem_of_ite_nil' {α} {i : α} {c : Prop} [Decidable c] {l : List α}
    (h : i ∈ if c then [] else l) : i ∈ l := by
  split at h
  · exact absurd h (List.not_mem_nil i)
  · exact h

/-- Every naming-validator issue carries category `naming`. -/
theorem mem_namingValidate {b : Bundle} {i : ValidationIssue}
    (h : i ∈ namingValidate b) : i.category = Category.naming := by
  rcases List.mem_append.mp h with h1 | h1
  · obtain ⟨p, -, hp⟩ := List.mem_flatMap.mp h1
    obtain ⟨tc, -, htc⟩ := List.mem_flatMap.mp (mem_of_ite_nil hp)
    rcases List.mem_append.mp htc with h2 | h2 <;>
      rw [List.mem_singleton.mp (mem_of_ite_nil h2)] <;> rfl
  · obtain ⟨p, -, hp⟩ := List.mem_flatMap.mp h1
    obtain ⟨tc, -, htc⟩ := List.mem_flatMap.mp (mem_of_ite_nil hp)
    rw [List.mem_singleton.mp (mem_of_ite_nil' htc)]
    rfl

/-- Every security-validator issue carries category `security`. -/
theorem mem_securityValidate {b : Bundle} {i : ValidationIssue}
    (h : i ∈ securityValidate b) : i.category = Category.security := by
  rcases List.mem_append.mp h with h01 | h1
  · rcases List.mem_append.mp h01 with h1 | h1
    · obtain ⟨p, -, hp⟩ := List.mem_flatMap.mp h1
      obtain ⟨m, -, hm⟩ := List.mem_map.mp (mem_of_ite_nil hp)
      rw [← hm]
      rfl
    · obtain ⟨p, -, hp⟩ := List.mem_flatMap.mp h1
      rw [List.mem_singleton.mp (mem_of_ite_nil (mem_of_ite_nil hp))]
      rfl
  · obtain ⟨p, -, hp⟩ := List.mem_flatMap.mp h1
    obtain ⟨m, -, hm⟩ := List.mem_map.mp (mem_of_ite_nil hp)
    rw [← hm]
    rfl

/-- Every documentation-validator issue carries category `documentation`. -/
theorem mem_documentationValidate {b : Bundle} {i : ValidationIssue}
    (h : i ∈ documentationValidate b) : i.category = Category.documentation := by
  rcases List.mem_append.mp h with h01 | h1
  · rcases List.mem_append.mp h01 with h1 | h1
    · rw [List.mem_singleton.mp (mem_of_ite_nil' h1)]
      rfl
    · obtain ⟨p, -, hp⟩ := List.mem_flatMap.mp h1
      obtain ⟨tc, -, htc⟩ := List.mem_flatMap.mp (mem_of_ite_nil hp)
      rw [List.mem_singleton.mp (mem_of_ite_nil' htc)]
      rfl
  · obtain ⟨p, -, hp⟩ := List.mem_flatMap.mp h1
    obtain ⟨tc, -, htc⟩ := List.mem_flatMap.mp (mem_of_ite_nil hp)
    rw [List.mem_singleton.mp (mem_of_ite_nil' htc)]
    rfl

/-- Every module-validator issue carries category `maintenance`. -/
theorem mem_moduleValidate {b : Bundle} {i : ValidationIssue}
    (h : i ∈ moduleValidate b) : i.category = Category.maintenance := by
  rcases List.mem_append.mp h with h1 | h1
  · obtain ⟨p, -, hp⟩ := List.mem_flatMap.mp h1
    obtain ⟨tc, -, htc⟩ := List.mem_flatMap.mp (mem_of_ite_nil hp)
    rcases hm : firstMatch sourceAttrAt tc.1 with - | pr
    · rw [hm] at htc
      exact absurd htc (List.not_mem_nil i)
    · obtain ⟨src, rest⟩ := pr
      rw [hm] at htc
      rw [List.mem_singleton.mp (mem_of_ite_nil htc)]
      rfl
  · rw [List.mem_singleton.mp (mem_of_ite_nil h1)]
    rfl

/-- Every resource-validator issue carries category `maintenance`. -/
theorem mem_resourceValidate {b : Bundle} {i : ValidationIssue}
    (h : i ∈ resourceValidate b) : i.category = Category.maintenance := by
  rcases List.mem_append.mp h with h1 | h1
  · obtain ⟨p, -, hp⟩ := List.mem_flatMap.mp h1
    obtain ⟨tc, -, htc⟩ := List.mem_flatMap.mp (mem_of_ite_nil hp)
    rw [List.mem_singleton.mp (mem_of_ite_nil (mem_of_ite_nil' htc))]
    rfl
  · obtain ⟨p, -, hp⟩ := List.mem_flatMap.mp h1
    obtain ⟨nc, -, hm⟩ := List.mem_map.mp (mem_of_ite_nil hp)
    rw [← hm]
    rfl

/-- Every oversize (monolithic-file) issue carries category `maintenance`. -/
theorem mem_monolithicIssues {b : Bundle} {i : ValidationIssue}
    (h : i ∈ monolithicIssues b) : i.category = Category.maintenance := by
  obtain ⟨p, -, hp⟩ := List.mem_flatMap.mp h
  rw [List.mem_singleton.mp (mem_of_ite_nil (mem_of_ite_nil hp))]
  rfl

/-- The aggregate standard-files issue carries severity `info`. -/
theorem mem_standardFilesIssues {b : Bundle} {i : ValidationIssue}
    (h : i ∈ standardFilesIssues b) : i.severity = Severity.info := by
  rw [List.mem_singleton.mp (mem_of_ite_nil' h)]
  rfl

/-- Counting a predicate that no maintenance-, info-, naming-, security- or
documentation-shaped issue satisfies reduces the whole engine output to the
three itemised missing-file checks of the structure validator. -/
theorem countP_validate_decomp (b : Bundle) (q : ValidationIssue → Bool)
    (hmaint : ∀ i, i.category = Category.maintenance → q i = false)
    (hinfo : ∀ i, i.severity = Severity.info → q i = false)
    (hnaming : ∀ i, i.category = Category.naming → q i = false)
    (hsec : ∀ i, i.category = Category.security → q i = false)
    (hdoc : ∀ i, i.category = Category.documentation → q i = false) :
    (validateConfiguration b).issues.countP q
      = ((if hasMainTF b then [] else [missingMainIssue]).countP q)
        + ((if hasVariablesTF b then [] else [missingVarsIssue]).countP q)
        + ((if hasOutputsTF b then [] else [missingOutsIssue]).countP q) := by
  show (structureValidate b ++ namingValidate b ++ securityValidate b
      ++ documentationValidate b ++ moduleValidate b ++ resourceValidate b).countP q = _
  have z1 : (monolithicIssues b).countP q = 0 :=
    List.countP_eq_zero.mpr (fun i hi => by simp [hmaint i (mem_monolithicIssues hi)])
  have z2 : (standardFilesIssues b).countP q = 0 :=
    List.countP_eq_zero.mpr (fun i hi => by simp [hinfo i (mem_standardFilesIssues hi)])
  have z3 : (namingValidate b).countP q = 0 :=
    List.countP_eq_zero.mpr (fun i hi => by simp [hnaming i (mem_namingValidate hi)])
  have z4 : (securityValidate b).countP q = 0 :=
    List.countP_eq_zero.mpr (fun i hi => by simp [hsec i (mem_securityValidate hi)])
  have z5 : (documentationValidate b).countP q = 0 :=
    List.countP_eq_zero.mpr (fun i hi => by simp [hdoc i (mem_documentationValidate hi)])
  have z6 : (moduleValidate b).countP q = 0 :=
    List.countP_eq_zero.mpr (fun i hi => by simp [hmaint i (mem_moduleValidate hi)])
  have z7 : (resourceValidate b).countP q = 0 :=
    List.countP_eq_zero.mpr (fun i hi => by simp [hmaint i (mem_resourceValidate hi)])
  rw [List.countP_append, List.countP_append, List.countP_append,
    List.countP_append, structureValidate, List.countP_append,
    List.countP_append, List.countP_append, List.countP_append,
    List.countP_append, z1, z2, z3, z4, z5, z6, z7]
  omega

/-- C10: a file named `*_variables.tf` suppresses the missing-`variables.tf`
Structure warning, and a file named `*_outputs.tf` suppresses the
missing-`outputs.tf` one, even though neither name is canonical. -/
theorem claim_C10 (b : Bundle) :
    (b.any (fun p => goHasSuffix p.1 "_variables.tf") = true →
      (validateConfiguration b).issues.countP isMissingVarsFinding = 0)
    ∧ (b.any (fun p => goHasSuffix p.1 "_outputs.tf") = true →
      (validateConfiguration b).issues.countP isMissingOutsFinding = 0) := by
  constructor
  · intro h
    have hv : hasVariablesTF b = true := by
      obtain ⟨p, hp, hs⟩ := List.any_eq_true.mp h
      exact List.any_eq_true.mpr ⟨p, hp, by simp [hs]⟩
    have hzm : ∀ c : Bool,
        ((if c = true then [] else [missingMainIssue]).countP isMissingVarsFinding) = 0 := by
      decide
    have hzo : ∀ c : Bool,
        ((if c = true then [] else [missingOutsIssue]).countP isMissingVarsFinding) = 0 := by
      decide
    rw [countP_validate_decomp b isMissingVarsFinding
        (fun i hi => by simp +decide [isMissingVarsFinding, hi])
        (fun i hi => by simp +decide [isMissingVarsFinding, hi])
        (fun i hi => by simp +decide [isMissingVarsFinding, hi])
        (fun i hi => by simp +decide [isMissingVarsFinding, hi])
        (fun i hi => by simp +decide [isMissingVarsFinding, hi]),
      hv, hzm (hasMainTF b), hzo (hasOutputsTF b)]
    decide
  · intro h
    have ho : hasOutputsTF b = true := by
      obtain ⟨p, hp, hs⟩ := List.any_eq_true.mp h
      exact List.any_eq_true.mpr ⟨p, hp, by simp [hs]⟩
    have hzm : ∀ c : Bool,
        ((if c = true then [] else [missingMainIssue]).countP isMissingOutsFinding) = 0 := by
      decide
    have hzv : ∀ c : Bool,
        ((if c = true then [] else [missingVarsIssue]).countP isMissingOutsFinding) = 0 := by
      decide
    rw [countP_validate_decomp b isMissingOutsFinding
        (fun i hi => by simp +decide [isMissingOutsFinding, hi])
        (fun i hi => by simp +decide [isMissingOutsFinding, hi])
        (fun i hi => by simp +decide [isMissingOutsFinding, hi])
        (fun i hi => by simp +decide [isMissingOutsFinding, hi])
        (fun i hi => by simp +decide [isMissingOutsFinding, hi]),
      ho, hzm (hasMainTF b), hzv (hasVariablesTF b)]
    decide

/-- Witness for C10 on a bundle carrying only suffix-named role files. -/
theorem claim_C10_witness :
    (c10Bundle.any (fun p => goHasSuffix p.1 "_variables.tf") = true ∧
      (validateConfiguration c10Bundle).issues.countP isMissingVarsFinding = 0) ∧
    (c10Bundle.any (fun p => goHasSuffix p.1 "_outputs.tf") = true ∧
      (validateConfiguration c10Bundle).issues.countP isMissingOutsFinding = 0) :=
  ⟨⟨by decide, (claim_C10 c10Bundle).1 (by decide)⟩,
   ⟨by decide, (claim_C10 c10Bundle).2 (by decide)⟩⟩

/-- An issue outside category `struct` never equals one of the three
itemised missing-file findings. -/
theorem itemized_false_of_cat {i : ValidationIssue}
    (h : i.category ≠ Category.struct) :
    (i == missingMainIssue || i == missingVarsIssue || i == missingOutsIssue)
      = false := by
  cases hq : (i == missingMainIssue || i == missingVarsIssue || i == missingOutsIssue)
  · rfl
  · rw [Bool.or_eq_true, Bool.or_eq_true, beq_iff_eq, beq_iff_eq, beq_iff_eq] at hq
    rcases hq with (rfl | rfl) | rfl <;> exact absurd rfl h

/-- An Info-severity issue never equals one of the three itemised
missing-file findings (their severities are Error / Warning / Warning). -/
theorem itemized_false_of_info {i : ValidationIssue}
    (h : i.severity = Severity.info) :
    (i == missingMainIssue || i == missingVarsIssue || i == missingOutsIssue)
      = false := by
  cases hq : (i == missingMainIssue || i == missingVarsIssue || i == missingOutsIssue)
  · rfl
  · rw [Bool.or_eq_true, Bool.or_eq_true, beq_iff_eq, beq_iff_eq, beq_iff_eq] at hq
    rcases hq with (rfl | rfl) | rfl <;> exact absurd h (by decide)

/-! ### Correctness of the credential scan (towards C5) -/

/-- A case-insensitive strip consumes exactly a prefix of its input. -/
theorem stripCIKeep_append :
    ∀ (p cs a r : List Char), stripCIKeep p cs = some (a, r) → cs = a ++ r := by
  intro p
  induction p with
  | nil =>
    intro cs a r h
    simp only [stripCIKeep, Option.some.injEq, Prod.mk.injEq] at h
    rcases h with ⟨rfl, rfl⟩
    rfl
  | cons x xs ih =>
    intro cs a r h
    match cs with
    | [] => simp [stripCIKeep] at h
    | c :: cs' =>
      simp only [stripCIKeep] at h
      split at h
      · cases h2 : stripCIKeep xs cs' with
        | none => rw [h2] at h; simp at h
        | some pr =>
          obtain ⟨a', r'⟩ := pr
          rw [h2] at h
          simp only [Option.some.injEq, Prod.mk.injEq] at h
          obtain ⟨rfl, rfl⟩ := h
          exact congrArg (List.cons c) (ih cs' _ _ h2)
      · exact absurd h (by simp)

/-- The keyword alternation consumes exactly a prefix of its input. -/
theorem firstKeywordAt_append {cs a r : List Char}
    (h : firstKeywordAt cs = some (a, r)) : cs = a ++ r := by
  unfold firstKeywordAt at h
  split at h
  · rename_i x heq
    exact stripCIKeep_append _ _ _ _ (heq.trans h)
  · split at h
    · rename_i x heq
      exact stripCIKeep_append _ _ _ _ (heq.trans h)
    · split at h
      · rename_i x heq
        exact stripCIKeep_append _ _ _ _ (heq.trans h)
      · split at h
        · rename_i x heq
          exact stripCIKeep_append _ _ _ _ (heq.trans h)
        · exact stripCIKeep_append _ _ _ _ h

/-- Go `secretTail` consumes exactly a prefix of its input, and what it
consumes ends with the closing quote. -/
theorem secretTail_spec {cs t r : List Char}
    (h : secretTail cs = some (t, r)) :
    cs = t ++ r ∧ ∃ t0, t = t0 ++ ['"'] := by
  simp only [secretTail] at h
  split at h
  · rename_i r2 heq
    split at h
    · rename_i r4 heq2
      split at h
      · rename_i r6 heq3
        split at h
        · exact absurd h (by simp)
        · simp only [Option.some.injEq, Prod.mk.injEq] at h
          rcases h with ⟨rfl, rfl⟩
          refine ⟨?_, _, rfl⟩
          conv_lhs => rw [← List.takeWhile_append_dropWhile goSpace cs, heq]
          conv_lhs => rw [← List.takeWhile_append_dropWhile goSpace r2, heq2]
          conv_lhs =>
            rw [← List.takeWhile_append_dropWhile (fun c => !(c = '"')) r4, heq3]
          simp
      · exact absurd h (by simp)
    · exact absurd h (by simp)
  · exact absurd h (by simp)

/-- Go `secretSuffix` consumes exactly a prefix of its input, and what it
consumes ends with the closing quote. -/
theorem secretSuffix_spec {r1 t rest : List Char}
    (h : secretSuffix r1 = some (t, rest)) :
    r1 = t ++ rest ∧ ∃ t0, t = t0 ++ ['"'] := by
  cases r1 with
  | nil => simp [secretSuffix] at h
  | cons c r2 =>
    simp only [secretSuffix] at h
    by_cases hs : asciiLower c = 's'
    · rw [if_pos hs] at h
      cases heq2 : secretTail r2 with
      | some pr =>
        obtain ⟨t', rest'⟩ := pr
        rw [heq2] at h
        simp only [Option.some.injEq, Prod.mk.injEq] at h
        rcases h with ⟨rfl, rfl⟩
        obtain ⟨h1, t0, ht0⟩ := secretTail_spec heq2
        refine ⟨by rw [h1]; rfl, c :: t0, by rw [ht0]; rfl⟩
      | none =>
        rw [heq2] at h
        simp only [] at h
        exact secretTail_spec h
    · rw [if_neg hs] at h
      exact secretTail_spec h

/-- Go `secretMatchAt` consumes exactly a prefix of its input, and every match
ends with the closing quote of the scanned literal. -/
theorem secretMatchAt_spec {cs m rest : List Char}
    (h : secretMatchAt cs = some (m, rest)) :
    cs = m ++ rest ∧ ∃ m0, m = m0 ++ ['"'] := by
  unfold secretMatchAt at h
  cases heq : firstKeywordAt cs with
  | none => rw [heq] at h; simp at h
  | some pr =>
    obtain ⟨kw, r1⟩ := pr
    rw [heq] at h
    simp only [] at h
    cases heq2 : secretSuffix r1 with
    | none => rw [heq2] at h; simp at h
    | some pr2 =>
      obtain ⟨t, rest'⟩ := pr2
      rw [heq2] at h
      simp only [Option.some.injEq, Prod.mk.injEq] at h
      rcases h with ⟨rfl, rfl⟩
      obtain ⟨h1, t0, ht0⟩ := secretSuffix_spec heq2
      refine ⟨?_, kw ++ t0, by rw [ht0]; simp⟩
      rw [firstKeywordAt_append heq, h1]
      simp

/-- The credential matcher succeeds on any text starting with the literal
`password = "secret123"`, whatever follows. -/
theorem secretMatchAt_isSome (b : List Char) :
    (secretMatchAt (secretLiteral ++ b)).isSome := by
  show (secretMatchAt
    ('p' :: 'a' :: 's' :: 's' :: 'w' :: 'o' :: 'r' :: 'd' :: ' ' :: '=' :: ' ' ::
      '"' :: 's' :: 'e' :: 'c' :: 'r' :: 'e' :: 't' :: '1' :: '2' :: '3' :: '"' :: b)).isSome
  simp +decide [secretMatchAt, firstKeywordAt, stripCIKeep, kwPassword, secretSuffix,
    secretTail, List.takeWhile, List.dropWhile, asciiLower, goSpace]

/-- Among the proper prefixes of the literal, only the one of length 12
(`password = "`) ends with a quote. -/
theorem secretLiteral_take_quote :
    ∀ k, k < 22 → 1 ≤ k → (secretLiteral.take k).getLast? = some '"' → k = 12 := by
  decide

/-- Word `password` occurs in `password = "`. -/
theorem pw_infix_take12 : pwWord <:+: secretLiteral.take 12 := by
  decide

/-- Word `password` occurs in the literal itself. -/
theorem pw_infix_lit : pwWord <:+: secretLiteral := by
  decide

/-- The scanning loop of the credential check finds, in any text containing
the literal `password = "secret123"`, at least one match whose text
contains `password`. -/
theorem scanFuel_secret_finds :
    ∀ (fuel : Nat) (cs : List Char), cs.length ≤ fuel →
      secretLiteral <:+: cs →
      ∃ m ∈ scanFuel secretMatchAt fuel cs, pwWord <:+: m := by
  intro fuel
  induction fuel with
  | zero =>
    intro cs hlen hinf
    have h22 : secretLiteral.length = 22 := rfl
    have := hinf.length_le
    omega
  | succ n ih =>
    intro cs hlen hinf
    rcases cs with - | ⟨c, cs'⟩
    · have h22 : secretLiteral.length = 22 := rfl
      have h0 := hinf.length_le
      rw [List.length_nil] at h0
      omega
    · cases hm : secretMatchAt (c :: cs') with
      | some pr =>
        obtain ⟨m, rest⟩ := pr
        obtain ⟨hcs, m0, hm0⟩ := secretMatchAt_spec hm
        have hscan : scanFuel secretMatchAt (n + 1) (c :: cs')
            = m :: scanFuel secretMatchAt n rest := by
          simp [scanFuel, hm]
        have hm1 : 1 ≤ m.length := by
          rw [hm0]
          simp
        have hrestlen : rest.length ≤ n := by
          have hL : (c :: cs').length = m.length + rest.length := by
            rw [hcs]
            simp
          simp at hL
          simp at hlen
          omega
        obtain ⟨s, t, hst⟩ := hinf
        have hst' : s ++ (secretLiteral ++ t) = c :: cs' := by
          rw [← List.append_assoc]
          exact hst
        have heq : m ++ rest = s ++ (secretLiteral ++ t) := by
          rw [← hcs]
          exact hst'.symm
        rcases List.append_eq_append_iff.mp heq with ⟨a', ha1, ha2⟩ | ⟨c', hc1, hc2⟩
        · -- the whole literal lies inside `rest`: recurse
          have hinf2 : secretLiteral <:+: rest :=
            ⟨a', t, by rw [ha2, List.append_assoc]⟩
          obtain ⟨m', hmem, hpw⟩ := ih rest hrestlen hinf2
          exact ⟨m', by rw [hscan]; exact List.mem_cons_of_mem _ hmem, hpw⟩
        · rcases List.append_eq_append_iff.mp hc2 with ⟨a2, hb1, hb2⟩ | ⟨c2, hd1, hd2⟩
          · -- the whole literal lies inside `m`
            have hPm : secretLiteral <:+: m := ⟨s, a2, by rw [hc1, hb1]; simp⟩
            exact ⟨m, by rw [hscan]; exact List.mem_cons_self _ _,
              pw_infix_lit.trans hPm⟩
          · -- the match boundary falls inside the literal
            rcases eq_or_ne c' [] with rfl | hc'ne
            · -- boundary exactly at the literal's start: recurse on `rest`
              simp only [List.nil_append] at hd1
              have hinf2 : secretLiteral <:+: rest :=
                ⟨[], t, by rw [hd2, ← hd1]; simp⟩
              obtain ⟨m', hmem, hpw⟩ := ih rest hrestlen hinf2
              exact ⟨m', by rw [hscan]; exact List.mem_cons_of_mem _ hmem, hpw⟩
            · have hlast : (s ++ c').getLast? = some '"' := by
                rw [← hc1, hm0]
                exact List.getLast?_concat _
              rw [List.getLast?_append] at hlast
              obtain ⟨y, hy⟩ := Option.isSome_iff_exists.mp
                (List.getLast?_isSome.mpr hc'ne)
              rw [hy] at hlast
              simp only [Option.or] at hlast
              have hy' : c'.getLast? = some '"' := by rw [hy, hlast]
              have hc'take : c' = secretLiteral.take c'.length := by
                rw [hd1, List.take_left]
              have hc'le : c'.length ≤ 22 := by
                have : secretLiteral.length = 22 := rfl
                have hlen2 := congrArg List.length hd1
                simp at hlen2
                omega
              rcases Nat.lt_or_ge c'.length 22 with hlt | hge
              · -- proper prefix: it must be `password = "` and contains `password`
                have h12 : c'.length = 12 := by
                  refine secretLiteral_take_quote c'.length hlt ?_ ?_
                  · have : 0 < c'.length := List.length_pos.mpr hc'ne
                    omega
                  · rw [← hc'take]
                    exact hy'
                have hpwc : pwWord <:+: c' := by
                  rw [hc'take, h12]
                  exact pw_infix_take12
                have hc'm : c' <:+: m := ⟨s, [], by rw [hc1]; simp⟩
                exact ⟨m, by rw [hscan]; exact List.mem_cons_self _ _,
                  hpwc.trans hc'm⟩
              · -- the boundary is past the literal: the literal lies inside `m`
                have h22 : c'.length = 22 := by
                  have : secretLiteral.length = 22 := rfl
                  have hlen2 := congrArg List.length hd1
                  simp at hlen2
                  omega
                have hc2nil : c2 = [] := by
                  have hlen2 := congrArg List.length hd1
                  have : secretLiteral.length = 22 := rfl
                  simp at hlen2
                  have : c2.length = 0 := by omega
                  exact List.eq_nil_of_length_eq_zero this
                rw [hc2nil, List.append_nil] at hd1
                have hPm : secretLiteral <:+: m := ⟨s, [], by rw [hc1, ← hd1]; simp⟩
                exact ⟨m, by rw [hscan]; exact List.mem_cons_self _ _,
                  pw_infix_lit.trans hPm⟩
      | none =>
        have hscan : scanFuel secretMatchAt (n + 1) (c :: cs')
            = scanFuel secretMatchAt n cs' := by
          simp [scanFuel, hm]
        obtain ⟨s, t, hst⟩ := hinf
        rcases s with - | ⟨c0, s'⟩
        · exfalso
          simp only [List.nil_append] at hst
          have hsome := secretMatchAt_isSome t
          rw [hst, hm] at hsome
          simp at hsome
        · simp only [List.cons_append] at hst
          injection hst with hc0 htl
          have hinf2 : secretLiteral <:+: cs' := ⟨s', t, htl⟩
          have hlen2 : cs'.length ≤ n := by
            simp at hlen
            omega
          obtain ⟨m', hmem, hpw⟩ := ih cs' hlen2 hinf2
          exact ⟨m', by rw [hscan]; exact hmem, hpw⟩

/-- C3 (against the claim): no name normalization exists.  The structure
rule flags the bundle `\x7bmain, vars, output.tf\x7d` with all three
itemised missing-file findings for every choice of contents — findings the
canonical bundle never gets — and the engine call itself aborts at the
unsupported `sensitivePattern`, so `ValidateConfiguration` delivers
nothing at all. -/
theorem claim_C3_bug (x y z : String) :
    (missingMainIssue ∈ structureValidate (c3Noncanon x y z) ∧
     missingVarsIssue ∈ structureValidate (c3Noncanon x y z) ∧
     missingOutsIssue ∈ structureValidate (c3Noncanon x y z)) ∧
    (structureValidate (c3Canon x y z)).countP
      (fun i => i == missingMainIssue || i == missingVarsIssue
        || i == missingOutsIssue) = 0 ∧
    validateConfigurationGo (c3Noncanon x y z)
      = Except.error sensitivePatternSrc := by
  refine ⟨?_, ?_, rfl⟩
  · have hm : hasMainTF (c3Noncanon x y z) = false := rfl
    have hv : hasVariablesTF (c3Noncanon x y z) = false := rfl
    have ho : hasOutputsTF (c3Noncanon x y z) = false := rfl
    refine ⟨?_, ?_, ?_⟩ <;> (unfold structureValidate; rw [hm, hv, ho]; simp)
  · have hm : hasMainTF (c3Canon x y z) = true := rfl
    have hv : hasVariablesTF (c3Canon x y z) = true := rfl
    have ho : hasOutputsTF (c3Canon x y z) = true := rfl
    have z1 : (monolithicIssues (c3Canon x y z)).countP
        (fun i => i == missingMainIssue || i == missingVarsIssue
          || i == missingOutsIssue) = 0 :=
      List.countP_eq_zero.mpr (fun i hi => by
        simp [itemized_false_of_cat (show i.category ≠ Category.struct by
          rw [mem_monolithicIssues hi]; decide)])
    have z2 : (standardFilesIssues (c3Canon x y z)).countP
        (fun i => i == missingMainIssue || i == missingVarsIssue
          || i == missingOutsIssue) = 0 :=
      List.countP_eq_zero.mpr (fun i hi => by
        simp [itemized_false_of_info (mem_standardFilesIssues hi)])
    unfold structureValidate
    rw [hm, hv, ho, List.countP_append, List.countP_append,
      List.countP_append, List.countP_append, z1, z2]
    decide

/-- C6 (against the claim): whenever the bundle has no file named exactly
`main.tf`, the structure rule constructs exactly one Error-severity
Structure finding with the missing-`main.tf` message — but the engine call
aborts at the unsupported `sensitivePattern`, so `ValidateConfiguration`
never includes that finding in a delivered result. -/
theorem claim_C6_bug (b : Bundle) (h : hasMainTF b = false) :
    (structureValidate b).countP isMissingMainFinding = 1 ∧
    validateConfigurationGo b = Except.error sensitivePatternSrc := by
  refine ⟨?_, rfl⟩
  have hzv : ∀ c : Bool,
      ((if c = true then [] else [missingVarsIssue]).countP isMissingMainFinding)
        = 0 := by
    decide
  have hzo : ∀ c : Bool,
      ((if c = true then [] else [missingOutsIssue]).countP isMissingMainFinding)
        = 0 := by
    decide
  have z1 : (monolithicIssues b).countP isMissingMainFinding = 0 :=
    List.countP_eq_zero.mpr (fun i hi => by
      simp +decide [isMissingMainFinding, mem_monolithicIssues hi])
  have z2 : (standardFilesIssues b).countP isMissingMainFinding = 0 :=
    List.countP_eq_zero.mpr (fun i hi => by
      simp +decide [isMissingMainFinding, mem_standardFilesIssues hi])
  unfold structureValidate
  rw [h, List.countP_append, List.countP_append, List.countP_append,
    List.countP_append, hzv (hasVariablesTF b), hzo (hasOutputsTF b), z1, z2]
  decide

/-- Witness for C6 at the empty bundle. -/
theorem claim_C6_bug_witness :
    hasMainTF ([] : Bundle) = false ∧
    (structureValidate ([] : Bundle)).countP isMissingMainFinding = 1 ∧
    validateConfigurationGo ([] : Bundle) = Except.error sensitivePatternSrc :=
  ⟨rfl, (claim_C6_bug [] rfl).1, (claim_C6_bug [] rfl).2⟩

/-- C7 (against the claim): `SuggestImprovements` on the empty bundle
aborts inside its internal `ValidateConfiguration` call and never returns
a map; the scaffold logic it never reaches would have produced exactly the
four canonical non-empty entries. -/
theorem claim_C7_bug :
    suggestImprovementsGo ([] : Bundle) = Except.error sensitivePatternSrc ∧
    (suggestImprovements []).map Prod.fst
      = ["main.tf", "variables.tf", "outputs.tf", "README.md"] ∧
    (suggestImprovements []).all (fun p => !(p.2 == "")) := by
  refine ⟨rfl, ?_, ?_⟩
  · decide
  · decide

/-- C5 (against the claim): for any `.tf`-named file containing the
literal `password = "secret123"`, the credential-scan loop does construct
an Error Security finding whose message contains `password` — but the
security validator's call aborts at the unsupported `sensitivePattern`
before returning anything, and a file not named `*.tf` (here `creds`) is
not scanned at all, so the rule logic yields no Error Security finding for
it either. -/
theorem claim_C5_bug (b : Bundle) (n c : String)
    (hmem : (n, c) ∈ b) (htf : goHasSuffix n ".tf" = true)
    (hinf : secretLiteral <:+: c.toList) :
    (∃ i ∈ securityValidate b,
      i.severity = Severity.error ∧ i.category = Category.security ∧
      pwWord <:+: i.message.toList) ∧
    securityValidateGo b = Except.error sensitivePatternSrc ∧
    (securityValidate c5NonTfBundle).countP isErrorSecurity = 0 := by
  refine ⟨?_, rfl, by decide⟩
  obtain ⟨m, hmS, hpw⟩ :=
    scanFuel_secret_finds c.toList.length c.toList le_rfl hinf
  refine ⟨secretIssue n m, ?_, rfl, rfl, ?_⟩
  · have htf' : tfName n = true := htf
    have h1 : secretIssue n m ∈
        (if tfName n then (scanAll secretMatchAt c.toList).map (secretIssue n)
         else ([] : List ValidationIssue)) := by
      rw [htf']
      simp only [if_true]
      exact List.mem_map_of_mem _ hmS
    have h2 : secretIssue n m ∈ b.flatMap (fun p =>
        if tfName p.1 then (scanAll secretMatchAt p.2.toList).map (secretIssue p.1)
        else []) :=
      List.mem_flatMap.mpr ⟨(n, c), hmem, h1⟩
    exact List.mem_append_left _ (List.mem_append_left _ h2)
  · show pwWord <:+: ("Possible hardcoded secret found: " ++ String.mk m).toList
    have hsplit : ("Possible hardcoded secret found: " ++ String.mk m).toList
        = "Possible hardcoded secret found: ".toList ++ m :=
      String.data_append _ _
    rw [hsplit]
    exact hpw.trans ⟨"Possible hardcoded secret found: ".toList, [], by simp⟩

/-- Witness for C5 on a one-file `.tf` bundle holding the literal. -/
theorem claim_C5_bug_witness :
    (("main.tf", c5Content) ∈ c5TfBundle ∧ goHasSuffix "main.tf" ".tf" = true ∧
      secretLiteral <:+: c5Content.toList) ∧
    ((∃ i ∈ securityValidate c5TfBundle,
        i.severity = Severity.error ∧ i.category = Category.security ∧
        pwWord <:+: i.message.toList) ∧
      securityValidateGo c5TfBundle = Except.error sensitivePatternSrc ∧
      (securityValidate c5NonTfBundle).countP isErrorSecurity = 0) :=
  ⟨⟨by decide, by decide, by decide⟩,
    claim_C5_bug c5TfBundle "main.tf" c5Content (by decide) (by decide)
      (by decide)⟩

end TfMcp
